import Mathlib

/-!
Verification development for the conversation-to-specification pipeline
(`src/backend/main.py`): the chat phase selector, the generate-prd JSON
extraction/repair and validation steps, the create-project scaffold
generator, and the HTTP routing surface.

Modelling conventions:
* Python strings are Lean `String`s; the JSON parser works on `List Char`.
* `json.loads` / `json.dumps` (Python stdlib) are modelled by `parseJson` /
  `serJson` below over the inductive `PyJson`.  The model covers the JSON
  fragment exercised by this program: numbers are integers (no floats),
  and a `\uXXXX` escape denoting a surrogate code unit fails the parse.
* Fallible Python code returns `Except PyErr`; an exception raised halfway
  through `create_project` keeps the side effects already performed, so
  that endpoint returns `FS × Except PyErr _` (state passed explicitly).
-/

namespace PipeSpec

/-- Python exception values that the endpoints can raise or catch. -/
inductive PyErr where
  | nameError (ident : String)
  | keyError (key : String)
  | valueError (msg : String)
  | jsonDecodeError (msg : String)
  | typeError (msg : String)
  | attributeError (msg : String)
  deriving DecidableEq, Repr

/-- A parsed JSON value, as produced by `json.loads` (integer numbers only;
floats are outside the modelled fragment). -/
inductive PyJson where
  | null
  | bool (b : Bool)
  | num (n : Int)
  | str (s : String)
  | arr (elems : List PyJson)
  | obj (members : List (String × PyJson))

/-- JSON whitespace accepted by `json.loads`. -/
def jWs (c : Char) : Bool := c = ' ' || c = '\t' || c = '\n' || c = '\r'

/-- Decimal digit test on characters. -/
def jDigit (c : Char) : Bool := 48 ≤ c.toNat && c.toNat ≤ 57

/-- Lower-case hex digit used by `json.dumps` when escaping control characters. -/
def hexChar (n : Nat) : Char :=
  if n < 10 then Char.ofNat ('0'.toNat + n) else Char.ofNat ('a'.toNat + (n - 10))

/-- How `json.dumps` writes one character inside a string literal:
`"` and `\` are backslash-escaped, the five short escapes are used for
their control characters, all other control characters become `\u00xx`,
and everything else is emitted verbatim (`ensure_ascii=False` fragment). -/
def escChar (c : Char) : List Char :=
  if c = '"' then ['\\', '"']
  else if c = '\\' then ['\\', '\\']
  else if c = '\n' then ['\\', 'n']
  else if c = '\t' then ['\\', 't']
  else if c = '\r' then ['\\', 'r']
  else if c = Char.ofNat 8 then ['\\', 'b']
  else if c = Char.ofNat 12 then ['\\', 'f']
  else if c.toNat < 32 then
    ['\\', 'u', '0', '0', hexChar (c.toNat / 16), hexChar (c.toNat % 16)]
  else [c]

/-- String-literal body emitted by `json.dumps` (without the quotes). -/
def escStr (s : List Char) : List Char := s.flatMap escChar

/-- Decimal digits of a natural number, most significant first (fuel keeps
the recursion structural; dividing by ten needs at most `n + 1` steps). -/
def natDigitsAux : Nat → Nat → List Char
  | 0, _ => []
  | fuel + 1, n =>
    if n < 10 then [Char.ofNat ('0'.toNat + n)]
    else natDigitsAux fuel (n / 10) ++ [Char.ofNat ('0'.toNat + n % 10)]

/-- Decimal digits of a natural number. -/
def natDigits (n : Nat) : List Char := natDigitsAux (n + 1) n

/-- `json.dumps` rendering of an integer. -/
def serInt (n : Int) : List Char :=
  if n < 0 then '-' :: natDigits n.natAbs else natDigits n.natAbs

mutual
/-- `json.dumps` with default separators (`", "` and `": "`). -/
def serJson : PyJson → List Char
  | .null => "null".data
  | .bool true => "true".data
  | .bool false => "false".data
  | .num n => serInt n
  | .str s => '"' :: escStr s.toList ++ ['"']
  | .arr xs => '[' :: serElems xs ++ [']']
  | .obj kvs => '{' :: serMembers kvs ++ ['}']

/-- Comma-separated renderings of the elements of an array. -/
def serElems : List PyJson → List Char
  | [] => []
  | x :: xs => serJson x ++ serElemsTail xs

/-- The `", "`-prefixed continuation of an array rendering. -/
def serElemsTail : List PyJson → List Char
  | [] => []
  | x :: xs => ',' :: ' ' :: serJson x ++ serElemsTail xs

/-- Comma-separated renderings of the members of an object. -/
def serMembers : List (String × PyJson) → List Char
  | [] => []
  | kv :: kvs => serMember kv ++ serMembersTail kvs

/-- The `", "`-prefixed continuation of an object rendering. -/
def serMembersTail : List (String × PyJson) → List Char
  | [] => []
  | kv :: kvs => ',' :: ' ' :: serMember kv ++ serMembersTail kvs

/-- One `"key": value` member rendering. -/
def serMember : String × PyJson → List Char
  | (k, v) => '"' :: escStr k.toList ++ '"' :: ':' :: ' ' :: serJson v
end

/-- Value of a hex digit, accepting both cases as `json.loads` does. -/
def hexDigitVal (c : Char) : Option Nat :=
  let n := c.toNat
  if 48 ≤ n ∧ n ≤ 57 then some (n - 48)
  else if 97 ≤ n ∧ n ≤ 102 then some (n - 87)
  else if 65 ≤ n ∧ n ≤ 70 then some (n - 55)
  else none

/-- The two-character escapes accepted inside a JSON string literal. -/
def escCode (e : Char) : Option Char :=
  if e = '"' then some '"'
  else if e = '\\' then some '\\'
  else if e = '/' then some '/'
  else if e = 'n' then some '\n'
  else if e = 't' then some '\t'
  else if e = 'r' then some '\r'
  else if e = 'b' then some (Char.ofNat 8)
  else if e = 'f' then some (Char.ofNat 12)
  else none

/-- String-literal body parser of `json.loads` (strict mode: unescaped
control characters are rejected).  Takes the characters after the opening
quote; returns the decoded content and the characters after the closing
quote.  A `\uXXXX` escape in the surrogate range fails (model boundary:
such a text denotes a lone surrogate, which our `Char` cannot carry). -/
def pStrBody : Nat → List Char → Option (List Char × List Char)
  | 0, _ => none
  | _ + 1, [] => none
  | fuel + 1, c :: rest =>
    if c = '"' then some ([], rest)
    else if c = '\\' then
      match rest with
      | [] => none
      | e :: rest' =>
        if e = 'u' then
          match rest' with
          | a :: b :: c2 :: d :: rest2 => do
            let va ← hexDigitVal a
            let vb ← hexDigitVal b
            let vc ← hexDigitVal c2
            let vd ← hexDigitVal d
            let n := ((va * 16 + vb) * 16 + vc) * 16 + vd
            if 0xd800 ≤ n ∧ n ≤ 0xdfff then none
            else do
              let (s, r) ← pStrBody fuel rest2
              pure (Char.ofNat n :: s, r)
          | _ => none
        else do
          let ch ← escCode e
          let (s, r) ← pStrBody fuel rest'
          pure (ch :: s, r)
    else if c.toNat < 32 then none
    else do
      let (s, r) ← pStrBody fuel rest
      pure (c :: s, r)

/-- String-literal body parser with enough fuel for its whole input
(every step consumes at least one character). -/
def pStringBody (cs : List Char) : Option (List Char × List Char) :=
  pStrBody (cs.length + 1) cs

/-- Numeric value of a digit run (accumulator form). -/
def digitsValAux (acc : Nat) : List Char → Nat
  | [] => acc
  | c :: rest => digitsValAux (10 * acc + (c.toNat - 48)) rest

/-- Numeric value of a digit run. -/
def digitsVal (ds : List Char) : Nat := digitsValAux 0 ds

/-- Unsigned-integer parser of `json.loads` (the modelled fragment: a
fraction part, an exponent part, or a leading zero fails the parse). -/
def pNumMag (cs1 : List Char) : Option (Nat × List Char) :=
  let ds := cs1.takeWhile jDigit
  let r := cs1.dropWhile jDigit
  if ds.isEmpty then none
  else if 1 < ds.length && ds.head? = some '0' then none
  else match r with
    | '.' :: _ => none
    | 'e' :: _ => none
    | 'E' :: _ => none
    | _ => some (digitsVal ds, r)

/-- Integer parser of `json.loads`, handling an optional leading minus. -/
def pNum (cs : List Char) : Option (Int × List Char) :=
  match cs with
  | '-' :: tl =>
    match pNumMag tl with
    | some (m, r) => some (-(m : Int), r)
    | none => none
  | _ =>
    match pNumMag cs with
    | some (m, r) => some ((m : Int), r)
    | none => none

mutual
/-- Recursive-descent value parser of `json.loads`, structural on fuel. -/
def pVal : Nat → List Char → Option (PyJson × List Char)
  | 0, _ => none
  | fuel + 1, cs =>
    match cs.dropWhile jWs with
    | 'n' :: 'u' :: 'l' :: 'l' :: r => some (.null, r)
    | 't' :: 'r' :: 'u' :: 'e' :: r => some (.bool true, r)
    | 'f' :: 'a' :: 'l' :: 's' :: 'e' :: r => some (.bool false, r)
    | '"' :: r => do
        let (s, r') ← pStringBody r
        pure (.str s.asString, r')
    | '[' :: r => do
        let (xs, r') ← pArrItems fuel r
        pure (.arr xs, r')
    | '{' :: r => do
        let (kvs, r') ← pObjItems fuel r
        pure (.obj kvs, r')
    | '-' :: r => do
        let (n, r') ← pNum ('-' :: r)
        pure (.num n, r')
    | c :: r =>
        if jDigit c then do
          let (n, r') ← pNum (c :: r)
          pure (.num n, r')
        else none
    | [] => none

/-- Array items after the opening bracket. -/
def pArrItems : Nat → List Char → Option (List PyJson × List Char)
  | 0, _ => none
  | fuel + 1, cs =>
    let cs := cs.dropWhile jWs
    if cs.head? = some ']' then some ([], cs.tail)
    else do
      let (v, r) ← pVal fuel cs
      let (vs, r') ← pArrSep fuel r
      pure (v :: vs, r')

/-- After one array item: a separator and another item, or the close. -/
def pArrSep : Nat → List Char → Option (List PyJson × List Char)
  | 0, _ => none
  | fuel + 1, cs =>
    let cs := cs.dropWhile jWs
    if cs.head? = some ']' then some ([], cs.tail)
    else if cs.head? = some ',' then do
      let (v, r) ← pVal fuel cs.tail
      let (vs, r') ← pArrSep fuel r
      pure (v :: vs, r')
    else none

/-- Object members after the opening brace. -/
def pObjItems : Nat → List Char → Option (List (String × PyJson) × List Char)
  | 0, _ => none
  | fuel + 1, cs =>
    let cs := cs.dropWhile jWs
    if cs.head? = some '}' then some ([], cs.tail)
    else match cs with
      | '"' :: r => do
          let (k, r1) ← pStringBody r
          let (v, r2) ← pColonVal fuel r1
          let (kvs, r3) ← pObjSep fuel r2
          pure ((k.asString, v) :: kvs, r3)
      | _ => none

/-- A colon and the member value. -/
def pColonVal : Nat → List Char → Option (PyJson × List Char)
  | 0, _ => none
  | fuel + 1, cs =>
    let cs := cs.dropWhile jWs
    if cs.head? = some ':' then pVal fuel cs.tail
    else none

/-- After one member: a separator and another member, or the close. -/
def pObjSep : Nat → List Char → Option (List (String × PyJson) × List Char)
  | 0, _ => none
  | fuel + 1, cs =>
    let cs := cs.dropWhile jWs
    if cs.head? = some '}' then some ([], cs.tail)
    else if cs.head? = some ',' then
      match cs.tail.dropWhile jWs with
      | '"' :: r => do
          let (k, r1) ← pStringBody r
          let (v, r2) ← pColonVal fuel r1
          let (kvs, r3) ← pObjSep fuel r2
          pure ((k.asString, v) :: kvs, r3)
      | _ => none
    else none
end

/-- `json.loads` on a character list: parse one value, then require only
whitespace to remain.  The fuel `3 * length + 3` over-approximates the
recursion depth (at most three nested calls advance past each character). -/
def parseChars (cs : List Char) : Option PyJson :=
  match pVal (3 * cs.length + 3) cs with
  | some (v, rest) => if (rest.dropWhile jWs).isEmpty then some v else none
  | none => none

/-- `json.loads` on a Python string. -/
def parseJson (s : String) : Option PyJson := parseChars s.toList

/-! ### Python string helpers used by `generate_prd` (lines 313-334) -/

/-- ASCII whitespace stripped by `str.strip()`. -/
def pyWs (c : Char) : Bool :=
  c = ' ' || c = '\t' || c = '\n' || c = '\r' || c = Char.ofNat 11 || c = Char.ofNat 12

/-- ASCII fragment of the regex class `\s`. -/
def reWs (c : Char) : Bool :=
  c = ' ' || c = '\t' || c = '\n' || c = '\r' || c = Char.ofNat 11 || c = Char.ofNat 12

/-- `str.strip()`: drop whitespace from both ends. -/
def pyStrip (cs : List Char) : List Char :=
  ((cs.dropWhile pyWs).reverse.dropWhile pyWs).reverse

/-- Worker for `str.replace(pat, "")`: scan left to right, removing each
non-overlapping occurrence of `pat`.  Fuel keeps it structural; every step
consumes at least one character, so `length + 1` fuel is always enough. -/
def replAux : Nat → List Char → List Char → List Char
  | 0, _, _ => []
  | _ + 1, _, [] => []
  | fuel + 1, pat, c :: rest =>
    if pat.isPrefixOf (c :: rest) then replAux fuel pat ((c :: rest).drop pat.length)
    else c :: replAux fuel pat rest

/-- `str.replace(pat, "")` for a non-empty pattern. -/
def pyReplace (pat cs : List Char) : List Char :=
  if pat.isEmpty then cs else replAux (cs.length + 1) pat cs

/-- The interior of the leftmost-then-greedy match of `re.search(r'({[\s\S]*})', s)`:
starting from the first `{` that has a later `}`, up to the last `}` of the text. -/
def truncAtLastClose (u : List Char) : List Char :=
  (u.reverse.dropWhile (fun c => !(c = '}'))).reverse

/-- `re.search(r'({[\s\S]*})', s)`, returning the captured group. -/
def braceSpan : List Char → Option (List Char)
  | [] => none
  | c :: rest =>
    if c = '{' && '}' ∈ rest then some (truncAtLastClose ('{' :: rest))
    else braceSpan rest

/-- Worker for `re.sub(r',(\s*[}\]])', r'\1', s)`: delete every comma that is
followed by optional whitespace and a closing brace or bracket, keeping the
whitespace and the bracket; scanning resumes after the matched bracket. -/
def rsubAux : Nat → List Char → List Char
  | 0, _ => []
  | _ + 1, [] => []
  | fuel + 1, c :: rest =>
    if c = ',' then
      match rest.dropWhile reWs with
      | '}' :: t => rest.takeWhile reWs ++ '}' :: rsubAux fuel t
      | ']' :: t => rest.takeWhile reWs ++ ']' :: rsubAux fuel t
      | _ => c :: rsubAux fuel rest
    else c :: rsubAux fuel rest

/-- `re.sub(r',(\s*[}\]])', r'\1', s)` — the trailing-comma repair. -/
def rsubCommas (cs : List Char) : List Char := rsubAux (cs.length + 1) cs

/-- The backtick character (0x60). -/
def btick : Char := Char.ofNat 96

/-- The marker `"```json"` removed by line 327. -/
def fenceJson : List Char := [btick, btick, btick, 'j', 's', 'o', 'n']

/-- The marker "```" removed by line 327. -/
def fencePlain : List Char := [btick, btick, btick]

/-! ### The JSON extraction step of `generate_prd` (main.py lines 313-334) -/

/-- The JSON Extractor/Repairer: strip the raw text; if it does not start
with `{`, search for a top-level `{...}` span; remove markdown fence
markers; `json.loads`; on failure remove trailing commas and retry. -/
def extractCore (raw : List Char) : Except PyErr PyJson :=
  let s0 := pyStrip raw
  match (if s0.head? = some '{' then Except.ok s0
         else match braceSpan s0 with
           | some m => Except.ok m
           | none => Except.error (PyErr.valueError
               "Could not find valid JSON in Mistral\x27s response")) with
  | .error e => .error e
  | .ok s1 =>
    let s2 := pyReplace fencePlain (pyReplace fenceJson s1)
    match parseChars s2 with
    | some j => .ok j
    | none =>
      match parseChars (rsubCommas s2) with
      | some j => .ok j
      | none => .error (.jsonDecodeError ((rsubCommas s2).take 200).asString)

/-- The extraction step on a Python string. -/
def extractJson (raw : String) : Except PyErr PyJson := extractCore raw.toList

/-! ### Python value helpers shared by `generate_prd` and `create_project` -/

/-- `str.lower()` (ASCII fragment). -/
def pyLower (s : String) : String := (s.toList.map Char.toLower).asString

/-- `str.replace(a, b)` for single characters. -/
def pyReplaceChar (a b : Char) (s : String) : String :=
  (s.toList.map fun c => if c = a then b else c).asString

/-- The slug transformation `title.lower().replace(' ', '_')` used by both
`generate_prd` (line 346) and `create_project` (line 367). -/
def slugOf (title : String) : String := pyReplaceChar ' ' '_' (pyLower title)

/-- Substring test (`needle in haystack` on Python strings). -/
def hasSub (pat : List Char) : List Char → Bool
  | [] => pat.isEmpty
  | c :: rest => pat.isPrefixOf (c :: rest) || hasSub pat rest

/-- Python `needle in j` for the value kinds `json.loads` can produce:
key containment for dicts, element equality for lists, substring for
strings, `TypeError` otherwise. -/
def pyIn (needle : String) (j : PyJson) : Except PyErr Bool :=
  match j with
  | .obj kvs => .ok (kvs.any fun kv => kv.1 = needle)
  | .arr xs => .ok (xs.any fun x => match x with
      | .str s => s = needle
      | _ => false)
  | .str s => .ok (hasSub needle.toList s.toList)
  | _ => .error (.typeError "argument is not iterable")

/-- Python dict lookup: `json.loads` keeps the last duplicate key, so a
lookup observes the last matching member of the parsed member list. -/
def lookupLast (k : String) : List (String × PyJson) → Option PyJson
  | [] => none
  | (k', v) :: rest =>
    match lookupLast k rest with
    | some r => some r
    | none => if k' = k then some v else none

/-- Python subscript `j[k]` for a string key. -/
def getItem (j : PyJson) (k : String) : Except PyErr PyJson :=
  match j with
  | .obj kvs =>
    match lookupLast k kvs with
    | some v => .ok v
    | none => .error (.keyError k)
  | .arr _ => .error (.typeError "list indices must be integers or slices, not str")
  | .str _ => .error (.typeError "string indices must be integers")
  | _ => .error (.typeError "object is not subscriptable")

/-- Python dict assignment `d[k] = v`: replace in place if the key exists,
append otherwise. -/
def setMember (kvs : List (String × PyJson)) (k : String) (v : PyJson) :
    List (String × PyJson) :=
  if kvs.any (fun kv => kv.1 = k) then kvs.map fun kv => if kv.1 = k then (k, v) else kv
  else kvs ++ [(k, v)]

/-- Python subscript assignment `j[k] = v` for a string key. -/
def setItem (j : PyJson) (k : String) (v : PyJson) : Except PyErr PyJson :=
  match j with
  | .obj kvs => .ok (.obj (setMember kvs k v))
  | _ => .error (.typeError "object does not support item assignment")

/-- `v.lower()` on a JSON value: only strings have the attribute. -/
def pyLowerAttr : PyJson → Except PyErr String
  | .str s => .ok (pyLower s)
  | _ => .error (.attributeError "lower")

/-- `", ".join`-style concatenation. -/
def joinSep (sep : String) : List String → String
  | [] => ""
  | [x] => x
  | x :: y :: rest => x ++ sep ++ joinSep sep (y :: rest)

/-- `str(e)` for the modelled exceptions. -/
def pyErrMsg : PyErr → String
  | .nameError ident => "name \x27" ++ ident ++ "\x27 is not defined"
  | .keyError k => "\x27" ++ k ++ "\x27"
  | .valueError m => m
  | .jsonDecodeError m => m
  | .typeError m => m
  | .attributeError a => "object has no attribute \x27" ++ a ++ "\x27"

/-! ### The specification validator of `generate_prd` (main.py lines 336-349) -/

/-- The required top-level fields, in source order. -/
def requiredFields : List String :=
  ["title", "description", "features", "technologies", "architecture", "implementationPlan"]

/-- `[field for field in fields if field not in j]` (order preserved). -/
def missingFrom (j : PyJson) : List String → Except PyErr (List String)
  | [] => .ok []
  | f :: fs => do
    let b ← pyIn f j
    let rest ← missingFrom j fs
    pure (if b then rest else f :: rest)

/-- The missing-required-fields computation of line 338. -/
def missingOf (j : PyJson) : Except PyErr (List String) := missingFrom j requiredFields

/-- The fixed `projectLinks` object built at lines 343-347 from a slug. -/
def projectLinksFor (slug : String) : PyJson :=
  .obj [("frontend", .str "http://localhost:3000"),
        ("backend", .str "http://localhost:3001"),
        ("repository", .str ("generated_projects/" ++ slug))]

/-- Specification Validator: fail with `ValueError` naming the missing
required fields, otherwise overwrite `projectLinks` with the canonical
links computed from the title. -/
def validateAndLink (j : PyJson) : Except PyErr PyJson := do
  let missing ← missingOf j
  if missing.isEmpty then do
    let titleV ← getItem j "title"
    let lowered ← pyLowerAttr titleV
    setItem j "projectLinks" (projectLinksFor (pyReplaceChar ' ' '_' lowered))
  else .error (.valueError ("Missing required fields in JSON: " ++ joinSep ", " missing))

/-- Outcome of the `generate_prd` endpoint after the provider reply. -/
inductive PrdOutcome where
  | ok (spec : PyJson)
  | err (status : Nat) (detail : String)

/-- Lines 336-361 after a successful parse: validation and the
`ValueError`-to-HTTP-500 mapping (`except ValueError` at line 356 and the
outer `except Exception` at line 359 both yield 500 with `str(e)`). -/
def prdValidateHttp (j : PyJson) : PrdOutcome :=
  match validateAndLink j with
  | .ok out => .ok out
  | .error e => .err 500 (pyErrMsg e)

/-- Lines 306-361: extraction, validation, and the exception-to-HTTP-500
mapping (`json.JSONDecodeError`, `ValueError`, and the outer
`except Exception` all become HTTP 500 with a `detail` string). -/
def generatePrdStage (raw : String) : PrdOutcome :=
  match extractJson raw with
  | .error (.jsonDecodeError m) =>
    .err 500 ("Failed to parse JSON from Mistral\x27s response. Error: \nResponse: " ++ m ++ "...")
  | .error e => .err 500 (pyErrMsg e)
  | .ok j => prdValidateHttp j

/-! ### The chat phase selector (main.py lines 115-198) -/

/-- One conversation turn of a `ChatRequest`. -/
structure ChatMsg where
  role : String
  content : String
  deriving DecidableEq, Repr

/-- Line 116: `sum(1 for msg in request.messages if msg.role == "user")`. -/
def userMsgCount (msgs : List ChatMsg) : Nat :=
  (msgs.filter fun m => m.role == "user").length

/-- The two fixed system-prompt variants of lines 120-198. -/
inductive PromptVariant where
  | discovery
  | collaborative
  deriving DecidableEq, Repr

/-- Line 120: the Discovery prompt is used when the user-turn count is at
most 2, the Collaborative prompt otherwise.  Pure function of the turn
sequence. -/
def selectVariant (msgs : List ChatMsg) : PromptVariant :=
  if userMsgCount msgs ≤ 2 then .discovery else .collaborative

/-! ### The HTTP routing surface (main.py lines 59-110, 239-250, 363) -/

/-- A Python dict as pydantic delivers it (`List[dict]` fields). -/
def PyDict := List (String × PyJson)

/-- Python dict lookup `d[k]`, raising `KeyError` when absent. -/
def dictGet (d : PyDict) (k : String) : Except PyErr PyJson :=
  match lookupLast k d with
  | some v => .ok v
  | none => .error (.keyError k)

/-- `str(v)` as used by f-string interpolation.  Strings render verbatim,
booleans and `None` use their Python names; containers are rendered via
the JSON serializer (an approximation of `repr`; no modelled scenario
interpolates a container). -/
def pyStr : PyJson → String
  | .str s => s
  | .bool true => "True"
  | .bool false => "False"
  | .null => "None"
  | .num n => (serInt n).asString
  | .arr xs => (serJson (.arr xs)).asString
  | .obj kvs => (serJson (.obj kvs)).asString

/-- Monadic map over a list, stopping at the first raised exception (the
evaluation order of a Python generator consumed by `str.join`). -/
def mapExc (g : α → Except PyErr β) : List α → Except PyErr (List β)
  | [] => .ok []
  | x :: xs => do
    let y ← g x
    let ys ← mapExc g xs
    pure (y :: ys)

/-- Like `mapExc` with the `enumerate` index. -/
def mapExcIdx (g : Nat → α → Except PyErr β) (start : Nat) :
    List α → Except PyErr (List β)
  | [] => .ok []
  | x :: xs => do
    let y ← g start x
    let ys ← mapExcIdx g (start + 1) xs
    pure (y :: ys)

/-- Python iteration `for x in v` over a JSON value: lists yield elements,
dicts yield their keys, strings yield their characters. -/
def pyIter : PyJson → Except PyErr (List PyJson)
  | .arr xs => .ok xs
  | .obj kvs => .ok (kvs.map fun kv => .str kv.1)
  | .str s => .ok (s.toList.map fun c => .str c.toString)
  | _ => .error (.typeError "object is not iterable")

/-- `sep.join(v)`: every yielded item must be a string. -/
def pyJoinVal (sep : String) (j : PyJson) : Except PyErr String := do
  let xs ← pyIter j
  let ss ← mapExc (fun x => match x with
    | PyJson.str s => .ok s
    | _ => .error (.typeError "sequence item: expected str instance")) xs
  pure (joinSep sep ss)

/-- Line 387: one Features checklist entry
`- [ ] **{f['name']}** (Priority: {f['priority']})\n  - {f['description']}`. -/
def featGuideLine (f : PyDict) : Except PyErr String := do
  let n ← dictGet f "name"
  let p ← dictGet f "priority"
  let d ← dictGet f "description"
  pure ("- [ ] **" ++ pyStr n ++ "** (Priority: " ++ pyStr p ++ ")\n  - " ++ pyStr d)

/-- The scope in which the body of the line-390 generator expression is
evaluated: the generator binds `f` (to one element of
`spec.technologies`); the enclosing `create_project` locals are `spec`,
`project_name` and `project_dir`, and no enclosing scope (locals, module
globals, builtins) binds `t`. -/
def genexpTechScope (fVal : PyDict) : List (String × PyDict) := [("f", fVal)]

/-- Line 390 body: `f"- [ ] **{t['name']}**: {t['purpose']}"`.  The
interpolations read the name `t`, which is resolved against the scope; a
name not bound anywhere raises `NameError`. -/
def techGuideLine (env : List (String × PyDict)) : Except PyErr String := do
  match env.lookup "t" with
  | none => .error (.nameError "t")
  | some t => do
    let n ← dictGet t "name"
    let p ← dictGet t "purpose"
    pure ("- [ ] **" ++ pyStr n ++ "**: " ++ pyStr p)

/-- Line 390: the Technical Requirements entries,
`(... for f in spec.technologies)` with the body reading `t`. -/
def techGuideLines (techs : List PyDict) : Except PyErr (List String) :=
  mapExc (fun f => techGuideLine (genexpTechScope f)) techs

/-- Line 396: one architecture-component block. -/
def compGuideLine (c : PyJson) : Except PyErr String := do
  let n ← getItem c "name"
  let p ← getItem c "purpose"
  let iv ← getItem c "interactions"
  let ints ← pyJoinVal ", " iv
  pure ("- [ ] **" ++ pyStr n ++ "**\n  - Purpose: " ++ pyStr p ++ "\n  - Interactions: " ++ ints)

/-- Line 399 task entry `- [ ] {task['name']} ({task['duration']})`. -/
def taskGuideLine (t : PyJson) : Except PyErr String := do
  let n ← getItem t "name"
  let d ← getItem t "duration"
  pure ("- [ ] " ++ pyStr n ++ " (" ++ pyStr d ++ ")")

/-- Line 399: one implementation-plan phase block (`enumerate` index `i`). -/
def phaseGuideBlock (i : Nat) (ph : PyDict) : Except PyErr String := do
  let pname ← dictGet ph "phase"
  let dur ← dictGet ph "duration"
  let tasksV ← dictGet ph "tasks"
  let tasks ← pyIter tasksV
  let lines ← mapExc taskGuideLine tasks
  pure ("### Phase " ++ (natDigits (i + 1)).asString ++ ": " ++ pyStr pname ++ " ("
    ++ pyStr dur ++ ")\n" ++ joinSep "\n" lines)

/-- The request body of `POST /create-project` after pydantic validation
(`ProjectSpec` model, main.py lines 51-57). -/
structure ProjectSpec where
  title : String
  description : String
  features : List PyDict
  technologies : List PyDict
  architecture : PyDict
  implementationPlan : List PyDict

/-- The implementation-guide template (lines 372-419), assembled from the
already-evaluated sections. -/
def guideText (title desc featsS techsS archTypeS compsS planS : String) : String :=
  "# Project Implementation Guide: " ++ title ++ "\n\n## Overview\n" ++ desc ++
  "\n\n## Implementation Checklist\n\n### Setup\n- [x] Create project structure\n" ++
  "- [ ] Install dependencies\n- [ ] Configure server for port 3000\n" ++
  "- [ ] Setup build process\n- [ ] Configure environment variables\n\n### Features\n" ++
  featsS ++ "\n\n### Technical Requirements\n" ++ techsS ++
  "\n\n### Architecture Implementation\n**Type:** " ++ archTypeS ++
  "\n\n**Components to Implement:**\n" ++ compsS ++ "\n\n## Implementation Plan\n" ++
  planS ++ "\n\n## Server Configuration\n" ++
  "The application should be configured to run on the following ports:\n" ++
  "- Frontend: http://localhost:3000\n- Backend API: http://localhost:3001\n\n" ++
  "## Development Guidelines\n1. Write clean, modular code with proper comments\n" ++
  "2. Implement proper error handling\n3. Include tests for all major functionality\n" ++
  "4. Use environment variables for configuration\n5. Document API endpoints\n\n" ++
  "## Next Steps\n1. Start by implementing the server setup on port 3000\n" ++
  "2. Implement core features first\n3. Add styling and UI enhancements\n" ++
  "4. Implement integration with required services\n5. Add tests and documentation\n"

/-- Lines 372-419: evaluate the f-string interpolations in source order
and assemble the guide. -/
def buildGuide (spec : ProjectSpec) : Except PyErr String := do
  let feats ← mapExc featGuideLine spec.features
  let techs ← techGuideLines spec.technologies
  let archType ← dictGet spec.architecture "type"
  let compsV ← dictGet spec.architecture "components"
  let comps ← pyIter compsV
  let compLines ← mapExc compGuideLine comps
  let phases ← mapExcIdx phaseGuideBlock 0 spec.implementationPlan
  pure (guideText spec.title spec.description (joinSep "\n" feats) (joinSep "\n" techs)
    (pyStr archType) (joinSep "\n" compLines) (joinSep "\n" phases))

/-- The PRD.md template (lines 426-443). -/
def prdText (title desc : String) : String :=
  "# Project: " ++ title ++ "\n\n## Project Description\n" ++ desc ++
  "\n\n## Project Links\n- Frontend: http://localhost:3000\n- Backend: http://localhost:3001\n\n" ++
  "## Getting Started\n1. Make sure you have Node.js installed\n" ++
  "2. Run `npm install` to install dependencies\n" ++
  "3. Run `npm run dev` to start the development server\n" ++
  "4. Open your browser to http://localhost:3000\n\n## Scope\n" ++
  "This project implements the functionality defined in the PRD.\n"

/-- The README.md template (lines 459-479). -/
def readmeText (title desc projectDir featsS : String) : String :=
  "# " ++ title ++ "\n\n" ++ desc ++
  "\n\n## Project Links\n- Frontend: http://localhost:3000\n- Backend: http://localhost:3001\n" ++
  "- Project Directory: " ++ projectDir ++ "\n\n## Getting Started\n" ++
  "1. Clone this repository\n2. Install dependencies: `npm install`\n" ++
  "3. Start the development server: `npm run dev`\n" ++
  "4. Access the application at http://localhost:3000\n\n## Features\n" ++ featsS ++
  "\n\n## Implementation Status\n" ++
  "See IMPLEMENTATION_GUIDE.md for the current implementation status and next steps.\n"

/-- Lines 459-479: evaluate the README interpolations in source order. -/
def buildReadme (spec : ProjectSpec) (projectDir : String) : Except PyErr String := do
  let lines ← mapExc (fun f => do
    let n ← dictGet f "name"
    let d ← dictGet f "description"
    pure ("- " ++ pyStr n ++ ": " ++ pyStr d)) spec.features
  pure (readmeText spec.title spec.description projectDir (joinSep "\n" lines))

/-- The fixed `.env` template (lines 484-491). -/
def envText : String :=
  "# Environment Configuration\nPORT=3000\nAPI_PORT=3001\nNODE_ENV=development\n\n" ++
  "# Add any API keys or secrets below (but don\x27t commit them to version control)\n" ++
  "# API_KEY=your_api_key_here\n"

/-- `pathlib` `/` join: an absolute right operand replaces the base. -/
def pathJoin (base child : String) : String :=
  if child.toList.head? = some '/' then child else base ++ "/" ++ child

/-- Split a character list at `/` separators. -/
def splitSlashAux (acc : List Char) : List Char → List String
  | [] => [acc.reverse.asString]
  | c :: rest =>
    if c = '/' then acc.reverse.asString :: splitSlashAux [] rest
    else splitSlashAux (c :: acc) rest

/-- Split a path string into its `/`-separated segments. -/
def splitSlash (s : String) : List String := splitSlashAux [] s.toList

/-- OS-level lexical resolution of a relative path string into components:
split on `/`, drop empty and `.` segments, let `..` pop the previous
component. -/
def resolvePath (s : String) : List String :=
  ((splitSlash s).filter fun seg => seg ≠ "" && seg ≠ ".").foldl
    (fun acc seg =>
      if seg = ".." then
        if acc ≠ [] ∧ acc.getLast? ≠ some ".." then acc.dropLast else acc ++ [".."]
      else acc ++ [seg]) []

/-- The filesystem state: file contents and directories, keyed by resolved
path components. -/
structure FS where
  files : List (List String × String)
  dirs : List (List String)

/-- An empty filesystem. -/
def emptyFS : FS := ⟨[], []⟩

/-- First entry with the given path. -/
def findFile : List (List String × String) → List String → Option String
  | [], _ => none
  | e :: rest, p => if e.1 = p then some e.2 else findFile rest p

/-- Content of a file, if present. -/
def lookupFile (fs : FS) (p : List String) : Option String := findFile fs.files p

/-- `open(path, "w")` + write: overwrite in place or create. -/
def writeFS (fs : FS) (p : List String) (content : String) : FS :=
  ⟨if fs.files.any (fun e => e.1 = p) then
      fs.files.map fun e => if e.1 = p then (p, content) else e
    else fs.files ++ [(p, content)],
   fs.dirs⟩

/-- `mkdir(parents=True, exist_ok=True)`: record the directory (parents
are not separately tracked; no claim inspects them). -/
def mkdirFS (fs : FS) (p : List String) : FS :=
  ⟨fs.files, if p ∈ fs.dirs then fs.dirs else fs.dirs ++ [p]⟩

/-- The response body of a successful `create_project` (lines 495-499). -/
structure ScaffoldResult where
  project_dir : String
  frontend_url : String
  backend_url : String
  deriving DecidableEq, Repr

/-- Line 368: `Path("generated_projects") / spec.title.lower().replace(" ", "_")`. -/
def projectDirStr (spec : ProjectSpec) : String :=
  pathJoin "generated_projects" (slugOf spec.title)

/-- `create_project` (lines 363-499): mkdir the project directory, build
and write the guide, the PRD, the subdirectories, the README and the
`.env`, in source order.  An exception keeps the side effects already
performed and aborts the rest (the HTTP layer turns it into a 500). -/
def createProject (spec : ProjectSpec) (fs : FS) : FS × Except PyErr ScaffoldResult :=
  let project_dir := projectDirStr spec
  let fs1 := mkdirFS fs (resolvePath project_dir)
  match buildGuide spec with
  | .error e => (fs1, .error e)
  | .ok guide =>
    let fs2 := writeFS fs1 (resolvePath (project_dir ++ "/IMPLEMENTATION_GUIDE.md")) guide
    let fs3 := writeFS fs2 (resolvePath (project_dir ++ "/PRD.md"))
      (prdText spec.title spec.description)
    let fs4 := mkdirFS fs3 (resolvePath (project_dir ++ "/src"))
    let fs5 := mkdirFS fs4 (resolvePath (project_dir ++ "/src/frontend"))
    let fs6 := mkdirFS fs5 (resolvePath (project_dir ++ "/src/backend"))
    let fs7 := mkdirFS fs6 (resolvePath (project_dir ++ "/src/shared"))
    let fs8 := mkdirFS fs7 (resolvePath (project_dir ++ "/docs"))
    let fs9 := mkdirFS fs8 (resolvePath (project_dir ++ "/tests"))
    match buildReadme spec project_dir with
    | .error e => (fs9, .error e)
    | .ok readme =>
      let fs10 := writeFS fs9 (resolvePath (project_dir ++ "/README.md")) readme
      let fs11 := writeFS fs10 (resolvePath (project_dir ++ "/.env")) envText
      (fs11, .ok ⟨project_dir, "http://localhost:3000", "http://localhost:3001"⟩)

/-- The four file paths `create_project` writes for a specification. -/
def writtenFilePaths (spec : ProjectSpec) : List (List String) :=
  let d := projectDirStr spec
  [resolvePath (d ++ "/IMPLEMENTATION_GUIDE.md"), resolvePath (d ++ "/PRD.md"),
   resolvePath (d ++ "/README.md"), resolvePath (d ++ "/.env")]

/-! ### Value predicates used by the round-trip statements -/

mutual
/-- The value carries no numbers (ProjectSpecification leaves are text). -/
def noNum : PyJson → Bool
  | .null => true
  | .bool _ => true
  | .num _ => false
  | .str _ => true
  | .arr xs => noNumL xs
  | .obj kvs => noNumM kvs

/-- `noNum` over array elements. -/
def noNumL : List PyJson → Bool
  | [] => true
  | x :: xs => noNum x && noNumL xs

/-- `noNum` over object members. -/
def noNumM : List (String × PyJson) → Bool
  | [] => true
  | kv :: kvs => noNum kv.2 && noNumM kvs
end

mutual
/-- No string or key of the value contains a backtick. -/
def noBt : PyJson → Bool
  | .null => true
  | .bool _ => true
  | .num _ => true
  | .str s => !s.toList.contains btick
  | .arr xs => noBtL xs
  | .obj kvs => noBtM kvs

/-- `noBt` over array elements. -/
def noBtL : List PyJson → Bool
  | [] => true
  | x :: xs => noBt x && noBtL xs

/-- `noBt` over object members. -/
def noBtM : List (String × PyJson) → Bool
  | [] => true
  | kv :: kvs => (!kv.1.toList.contains btick && noBt kv.2) && noBtM kvs
end

/-- Discriminator for extraction outcomes. -/
def isOkE : Except PyErr PyJson → Bool
  | .ok _ => true
  | .error _ => false

/-! ### Named concrete inputs used by the claim theorems -/

/-- The end-to-end scenario-2 specification of the spec (§8). -/
def taskTrackerSpec : ProjectSpec :=
  { title := "Task Tracker", description := "..."
    features := [[("name", .str "Add task"), ("description", .str "..."), ("priority", .str "High")]]
    technologies := [[("name", .str "React"), ("purpose", .str "UI")]]
    architecture := [("type", .str "Client-Server"),
      ("components", .arr [.obj [("name", .str "API"), ("purpose", .str "serve data"),
        ("interactions", .arr [.str "DB"])]])]
    implementationPlan := [[("phase", .str "MVP"), ("duration", .str "1 week"),
      ("tasks", .arr [.obj [("name", .str "Setup"), ("duration", .str "1 day")]])]] }

/-- A validated specification whose title contains a `..` path segment. -/
def escapeSpec : ProjectSpec :=
  { title := "../Escape", description := "d", features := [], technologies := []
    architecture := [("type", .str "T"), ("components", .arr [])]
    implementationPlan := [] }

/-- A parsed object missing only the `technologies` field. -/
def jNoTech : PyJson :=
  .obj [("title", .str "T"), ("description", .str "D"), ("features", .arr []),
        ("architecture", .obj []), ("implementationPlan", .arr [])]

/-- A complete parsed object carrying a model-supplied `projectLinks`. -/
def jFull : PyJson :=
  .obj [("title", .str "My App"), ("description", .str "D"), ("features", .arr []),
        ("technologies", .arr []), ("architecture", .obj []),
        ("implementationPlan", .arr []), ("projectLinks", .str "junk")]

/-- The members of a valid ProjectSpecification value (all required
fields, text leaves). -/
def prdKvsC8 : List (String × PyJson) :=
  [("title", .str "Task Tracker"), ("description", .str "A task app"),
        ("features", .arr [.obj [("name", .str "Add task"), ("description", .str "Add"),
          ("priority", .str "High")]]),
        ("technologies", .arr [.obj [("name", .str "React"), ("purpose", .str "UI")]]),
        ("architecture", .obj [("type", .str "Client-Server"),
          ("components", .arr [.obj [("name", .str "API"), ("purpose", .str "serve data"),
            ("interactions", .arr [.str "DB"])]])]),
        ("implementationPlan", .arr [.obj [("phase", .str "MVP"), ("duration", .str "1 week"),
          ("tasks", .arr [.obj [("name", .str "Setup"), ("duration", .str "1 day")]])]])]

/-- A valid ProjectSpecification value. -/
def prdObjC8 : PyJson := .obj prdKvsC8

/-- C8 counterexample raw text: the serialized specification in a fenced
block, with trailing prose that contains a `}`. -/
def textC8 : List Char :=
  "Here is the PRD:\n".toList ++ fenceJson ++ '\n' :: serJson prdObjC8 ++
    '\n' :: fencePlain ++ " Enjoy :-\x7d".toList

/-- Benign leading prose for the amended C8 statement. -/
def preW : List Char := "Sure, here it is:\n".toList

/-- Benign trailing prose for the amended C8 statement. -/
def postW : List Char := "\nLet me know if you want changes.".toList

/-- A stray pre-existing file used to witness the C9 frame property. -/
def strayPath : List String := ["generated_projects", "task_tracker", "notes.txt"]

/-- A filesystem that already contains the scenario-2 project directory
and a stray file inside it. -/
def preFS : FS :=
  ⟨[(strayPath, "keep me")], [["generated_projects", "task_tracker"]]⟩

/-! ### Helper lemmas -/

@[simp]
theorem ebind_error {α β : Type} (e : PyErr) (f : α → Except PyErr β) :
    (Except.error e >>= f) = Except.error e := rfl

@[simp]
theorem ebind_ok {α β : Type} (a : α) (f : α → Except PyErr β) :
    (Except.ok a >>= f) = f a := rfl

theorem lookupLast_append_single (k : String) (v : PyJson)
    (l : List (String × PyJson)) : lookupLast k (l ++ [(k, v)]) = some v := by
  induction l with
  | nil => simp [lookupLast]
  | cons e l ih => simp [lookupLast, ih]

theorem lookupLast_none_of_no_key (k : String) (l : List (String × PyJson))
    (h : l.any (fun kv => kv.1 = k) = false) : lookupLast k l = none := by
  induction l with
  | nil => rfl
  | cons e l ih =>
    simp only [List.any_cons, Bool.or_eq_false_iff, decide_eq_false_iff_not] at h
    simp [lookupLast, ih (by simpa using h.2), h.1]

theorem map_set_id_of_no_key (k : String) (v : PyJson) (l : List (String × PyJson))
    (h : l.any (fun kv => kv.1 = k) = false) :
    (l.map fun kv => if kv.1 = k then (k, v) else kv) = l := by
  induction l with
  | nil => rfl
  | cons e l ih =>
    simp only [List.any_cons, Bool.or_eq_false_iff, decide_eq_false_iff_not] at h
    simp [h.1, ih (by simpa using h.2)]

theorem lookupLast_map_set (k : String) (v : PyJson) (l : List (String × PyJson))
    (h : l.any (fun kv => kv.1 = k) = true) :
    lookupLast k (l.map fun kv => if kv.1 = k then (k, v) else kv) = some v := by
  induction l with
  | nil => simp at h
  | cons e l ih =>
    simp only [List.any_cons, Bool.or_eq_true, decide_eq_true_eq] at h
    cases hrest : l.any (fun kv => kv.1 = k) with
    | true => simp [lookupLast, ih hrest]
    | false =>
      have h1 : e.1 = k := by
        rcases h with h | h
        · simpa using h
        · rw [hrest] at h; cases h
      rw [List.map_cons, if_pos h1, map_set_id_of_no_key k v l hrest]
      simp [lookupLast, lookupLast_none_of_no_key k l hrest]

theorem lookupLast_setMember (k : String) (v : PyJson) (kvs : List (String × PyJson)) :
    lookupLast k (setMember kvs k v) = some v := by
  unfold setMember
  by_cases h : kvs.any (fun kv => kv.1 = k) = true
  · rw [if_pos h]; exact lookupLast_map_set k v kvs h
  · rw [if_neg h]; exact lookupLast_append_single k v kvs

theorem lookupFile_mkdirFS (fs : FS) (q p : List String) :
    lookupFile (mkdirFS fs q) p = lookupFile fs p := rfl

theorem findFile_map_write (files : List (List String × String)) (q : List String)
    (c : String) (p : List String) (hne : p ≠ q) :
    findFile (files.map fun e => if e.1 = q then (q, c) else e) p = findFile files p := by
  induction files with
  | nil => rfl
  | cons e l ih =>
    simp only [List.map_cons, findFile]
    by_cases he : e.1 = q
    · rw [if_pos he]
      have : ¬q = p := fun h => hne h.symm
      rw [if_neg this, if_neg (by rw [he]; exact this), ih]
    · rw [if_neg he]
      by_cases hp : e.1 = p
      · rw [if_pos hp, if_pos hp]
      · rw [if_neg hp, if_neg hp, ih]

theorem findFile_append_single (files : List (List String × String)) (q : List String)
    (c : String) (p : List String) (hne : p ≠ q) :
    findFile (files ++ [(q, c)]) p = findFile files p := by
  induction files with
  | nil =>
    simp only [List.nil_append, findFile]
    rw [if_neg (fun h => hne h.symm)]
  | cons e l ih =>
    simp only [List.cons_append, findFile]
    split
    · rfl
    · exact ih

theorem lookupFile_writeFS_ne (fs : FS) (q : List String) (c : String)
    (p : List String) (hne : p ≠ q) :
    lookupFile (writeFS fs q c) p = lookupFile fs p := by
  unfold lookupFile writeFS
  by_cases h : fs.files.any (fun e => e.1 = q) = true
  · simp only [h, if_true]
    exact findFile_map_write fs.files q c p hne
  · simp only [h, if_false]
    exact findFile_append_single fs.files q c p hne

theorem techGuideLine_name_error (d : PyDict) :
    techGuideLine (genexpTechScope d) = .error (.nameError "t") := rfl

theorem techGuideLines_cons_error (d : PyDict) (ds : List PyDict) :
    techGuideLines (d :: ds) = .error (.nameError "t") := rfl

theorem buildGuide_error_of_tech_nonempty (spec : ProjectSpec)
    (h : spec.technologies ≠ []) : ∃ e, buildGuide spec = .error e := by
  obtain ⟨d, ds, hds⟩ : ∃ d ds, spec.technologies = d :: ds := by
    cases h' : spec.technologies with
    | nil => exact absurd h' h
    | cons d ds => exact ⟨d, ds, rfl⟩
  unfold buildGuide
  cases hf : mapExc featGuideLine spec.features with
  | error e => exact ⟨e, by simp [hf]⟩
  | ok feats =>
    have ht : techGuideLines spec.technologies = .error (.nameError "t") := by
      rw [hds]; exact techGuideLines_cons_error d ds
    exact ⟨.nameError "t", by simp [hf, ht]⟩

/-! ### Claim theorems -/

/-- C5: the chat phase selector chooses the Discovery prompt exactly when
the number of user-role turns is at most 2, the Collaborative prompt when
it is greater than 2, and its choice depends only on that count. -/
theorem c5_phase_selector_by_user_count :
    ∀ (msgs m1 m2 : List ChatMsg),
      (selectVariant msgs = PromptVariant.discovery ↔ userMsgCount msgs ≤ 2) ∧
      (selectVariant msgs = PromptVariant.collaborative ↔ 2 < userMsgCount msgs) ∧
      (userMsgCount m1 = userMsgCount m2 → selectVariant m1 = selectVariant m2) := by
  intro msgs m1 m2
  refine ⟨?_, ?_, ?_⟩
  · unfold selectVariant
    split
    · simp_all
    · simp_all
  · unfold selectVariant
    split
    · next h => simp_all
    · next h => simp_all
  · intro h
    unfold selectVariant
    rw [h]

theorem c5_phase_selector_witness :
    userMsgCount [⟨"user", "hi"⟩] = userMsgCount [⟨"user", "yo"⟩] ∧
    selectVariant [⟨"user", "hi"⟩] = selectVariant [⟨"user", "yo"⟩] :=
  ⟨rfl, (c5_phase_selector_by_user_count [] [⟨"user", "hi"⟩] [⟨"user", "yo"⟩]).2.2 rfl⟩

/-- C1: on the scenario-2 specification (nonempty `technologies`),
`create_project` raises `NameError: name 't' is not defined` while
building the implementation guide (line 390 binds `f` but reads `t`), so
it returns HTTP 500 and writes neither `README.md` nor `.env`. -/
theorem c1_scenario2_raises_name_error :
    createProject taskTrackerSpec emptyFS =
      (⟨[], [["generated_projects", "task_tracker"]]⟩, Except.error (PyErr.nameError "t")) ∧
    lookupFile (createProject taskTrackerSpec emptyFS).1
      ["generated_projects", "task_tracker", "README.md"] = none ∧
    lookupFile (createProject taskTrackerSpec emptyFS).1
      ["generated_projects", "task_tracker", ".env"] = none :=
  ⟨rfl, rfl, rfl⟩

/-- C2: for every specification with a nonempty `technologies` list,
`create_project` writes no file at all (the guide f-string raises
`NameError` for `t` before the first write) and returns an error, so the
guide never contains a per-technology checklist line. -/
theorem c2_technologies_section_never_written :
    ∀ (spec : ProjectSpec) (fs : FS), spec.technologies ≠ [] →
      (createProject spec fs).1.files = fs.files ∧
      ∃ e, (createProject spec fs).2 = Except.error e := by
  intro spec fs htech
  obtain ⟨e, he⟩ := buildGuide_error_of_tech_nonempty spec htech
  constructor
  · simp [createProject, he, mkdirFS]
  · exact ⟨e, by simp [createProject, he]⟩

theorem c2_technologies_witness :
    taskTrackerSpec.technologies ≠ [] ∧
    ((createProject taskTrackerSpec preFS).1.files = preFS.files ∧
      ∃ e, (createProject taskTrackerSpec preFS).2 = Except.error e) :=
  ⟨by simp [taskTrackerSpec],
   c2_technologies_section_never_written taskTrackerSpec preFS (by simp [taskTrackerSpec])⟩

/-- C10: the slug only lower-cases and replaces spaces (path separators
and `..` survive), so the title `../Escape` makes `create_project`
resolve its directory to `escape`, outside `generated_projects`, and the
README is written there. -/
theorem c10_slug_allows_path_escape :
    slugOf "../Escape" = "../escape" ∧
    projectDirStr escapeSpec = "generated_projects/../escape" ∧
    resolvePath (projectDirStr escapeSpec) = ["escape"] ∧
    lookupFile (createProject escapeSpec emptyFS).1 ["escape", "README.md"] =
      some (readmeText "../Escape" "d" "generated_projects/../escape" "") ∧
    ((resolvePath (projectDirStr escapeSpec)).head? == some "generated_projects") = false :=
  ⟨rfl, rfl, rfl, rfl, rfl⟩

/-- C7: when required fields are missing, the validation step fails with a
`ValueError` whose message names exactly the missing fields in order, and
the endpoint surfaces it as HTTP 500 with that detail; an object missing
only `technologies` yields exactly `["technologies"]`. -/
theorem c7_missing_fields_named_500 :
    (∀ (j : PyJson) (miss : List String), missingOf j = .ok miss → miss ≠ [] →
      prdValidateHttp j =
        .err 500 ("Missing required fields in JSON: " ++ joinSep ", " miss)) ∧
    missingOf jNoTech = .ok ["technologies"] ∧
    prdValidateHttp jNoTech = .err 500 "Missing required fields in JSON: technologies" := by
  refine ⟨?_, rfl, rfl⟩
  intro j miss hm hne
  unfold prdValidateHttp validateAndLink
  rw [hm]
  cases miss with
  | nil => exact absurd rfl hne
  | cons a l => rfl

theorem c7_missing_fields_witness :
    missingOf jNoTech = .ok ["technologies"] ∧
    (["technologies"] : List String) ≠ [] ∧
    prdValidateHttp jNoTech =
      .err 500 ("Missing required fields in JSON: " ++ joinSep ", " ["technologies"]) :=
  ⟨rfl, by simp,
   c7_missing_fields_named_500.1 jNoTech ["technologies"] rfl (by simp)⟩

/-- C6: whenever the validator succeeds, the returned object carries a
`projectLinks` equal to the canonical links computed from the title slug
(lower-cased, spaces replaced by underscores), regardless of any
`projectLinks` present in the input. -/
theorem c6_project_links_overwritten :
    ∀ (j out : PyJson), validateAndLink j = .ok out →
      ∃ s : String, getItem j "title" = .ok (.str s) ∧
        getItem out "projectLinks" = .ok (projectLinksFor (slugOf s)) := by
  intro j out h
  unfold validateAndLink at h
  cases hm : missingOf j with
  | error e => rw [hm] at h; simp at h
  | ok miss =>
    rw [hm] at h
    simp only [ebind_ok] at h
    by_cases he : miss.isEmpty
    · rw [if_pos he] at h
      cases hti : getItem j "title" with
      | error e => rw [hti] at h; simp at h
      | ok tv =>
        rw [hti] at h
        simp only [ebind_ok] at h
        cases tv with
        | str s =>
          simp only [pyLowerAttr, ebind_ok] at h
          cases j with
          | obj kvs =>
            simp only [setItem] at h
            cases h
            refine ⟨s, rfl, ?_⟩
            show getItem (.obj (setMember kvs "projectLinks" _)) "projectLinks" = _
            simp only [getItem, lookupLast_setMember]
            rfl
          | null => simp [setItem] at h
          | bool b => simp [setItem] at h
          | num n => simp [setItem] at h
          | str s2 => simp [setItem] at h
          | arr xs => simp [setItem] at h
        | null => simp [pyLowerAttr] at h
        | bool b => simp [pyLowerAttr] at h
        | num n => simp [pyLowerAttr] at h
        | arr xs => simp [pyLowerAttr] at h
        | obj kvs => simp [pyLowerAttr] at h
    · rw [if_neg he] at h; simp at h

theorem c6_project_links_witness :
    validateAndLink jFull = .ok (.obj [("title", .str "My App"), ("description", .str "D"),
      ("features", .arr []), ("technologies", .arr []), ("architecture", .obj []),
      ("implementationPlan", .arr []), ("projectLinks", projectLinksFor "my_app")]) ∧
    (∃ s : String, getItem jFull "title" = .ok (.str s) ∧
      getItem (.obj [("title", .str "My App"), ("description", .str "D"),
        ("features", .arr []), ("technologies", .arr []), ("architecture", .obj []),
        ("implementationPlan", .arr []), ("projectLinks", projectLinksFor "my_app")])
        "projectLinks" = .ok (projectLinksFor (slugOf s))) :=
  ⟨rfl, c6_project_links_overwritten jFull _ rfl⟩

/-- C9: `create_project` reuses a pre-existing target directory without
clearing it: any file other than the four it writes
(IMPLEMENTATION_GUIDE.md, PRD.md, README.md, .env) is left unchanged. -/
theorem c9_preexisting_files_untouched :
    ∀ (spec : ProjectSpec) (fs : FS) (p : List String),
      resolvePath (projectDirStr spec) ∈ fs.dirs →
      p ∉ writtenFilePaths spec →
      lookupFile (createProject spec fs).1 p = lookupFile fs p := by
  intro spec fs p _hdir hp
  simp only [writtenFilePaths, List.mem_cons, List.not_mem_nil, or_false, not_or] at hp
  obtain ⟨h1, h2, h3, h4⟩ := hp
  cases hg : buildGuide spec with
  | error e =>
    simp only [createProject, hg]
    exact lookupFile_mkdirFS fs (resolvePath (projectDirStr spec)) p
  | ok guide =>
    cases hr : buildReadme spec (projectDirStr spec) with
    | error e =>
      simp only [createProject, hg, hr]
      simp only [lookupFile_mkdirFS]
      rw [lookupFile_writeFS_ne _ _ _ _ h2, lookupFile_writeFS_ne _ _ _ _ h1]
      rfl
    | ok readme =>
      simp only [createProject, hg, hr]
      rw [lookupFile_writeFS_ne _ _ _ _ h4, lookupFile_writeFS_ne _ _ _ _ h3]
      simp only [lookupFile_mkdirFS]
      rw [lookupFile_writeFS_ne _ _ _ _ h2, lookupFile_writeFS_ne _ _ _ _ h1]
      rfl

theorem dropWhile_append_of_eq_nil {p : Char → Bool} {l1 : List Char} (l2 : List Char)
    (h : l1.dropWhile p = []) : (l1 ++ l2).dropWhile p = l2.dropWhile p := by
  induction l1 with
  | nil => rfl
  | cons c r ih =>
    rw [List.dropWhile_cons] at h
    by_cases hc : p c = true
    · rw [List.cons_append, List.dropWhile_cons, if_pos hc]
      exact ih (by rw [if_pos hc] at h; exact h)
    · rw [if_neg hc] at h; cases h

theorem dropWhile_append_of_eq_cons {p : Char → Bool} {l1 : List Char} (l2 : List Char)
    {d : Char} {r : List Char} (h : l1.dropWhile p = d :: r) :
    (l1 ++ l2).dropWhile p = d :: (r ++ l2) := by
  induction l1 with
  | nil => cases h
  | cons c tl ih =>
    rw [List.dropWhile_cons] at h
    by_cases hc : p c = true
    · rw [List.cons_append, List.dropWhile_cons, if_pos hc]
      exact ih (by rw [if_pos hc] at h; exact h)
    · rw [if_neg hc] at h
      cases h
      rw [List.cons_append, List.dropWhile_cons, if_neg hc]

theorem dropWhile_cons_self {p : Char → Bool} {c : Char} (l : List Char)
    (h : p c = false) : (c :: l).dropWhile p = c :: l := by
  rw [List.dropWhile_cons, if_neg (by rw [h]; exact Bool.false_ne_true)]

theorem mem_of_isPrefixOf {pat l : List Char} (h : pat.isPrefixOf l = true) :
    ∀ x ∈ pat, x ∈ l := by
  induction pat generalizing l with
  | nil => intro x hx; cases hx
  | cons p ps ih =>
    cases l with
    | nil => cases h
    | cons q qs =>
      simp only [List.isPrefixOf, Bool.and_eq_true, beq_iff_eq] at h
      intro x hx
      rcases List.mem_cons.mp hx with rfl | hx
      · rw [h.1]; exact List.mem_cons_self q qs
      · exact List.mem_cons_of_mem q (ih h.2 x hx)

theorem replAux_id {x : Char} (pat : List Char) (hx : x ∈ pat) :
    ∀ (fuel : Nat) (cs : List Char), cs.length < fuel → x ∉ cs →
      replAux fuel pat cs = cs := by
  intro fuel
  induction fuel with
  | zero => intro cs h; omega
  | succ f ih =>
    intro cs hlen hmem
    cases cs with
    | nil => rfl
    | cons c rest =>
      have hpre : pat.isPrefixOf (c :: rest) = false := by
        cases hp : pat.isPrefixOf (c :: rest) with
        | false => rfl
        | true => exact absurd (mem_of_isPrefixOf hp x hx) hmem
      simp only [replAux, hpre, Bool.false_eq_true, if_false]
      rw [ih rest (by simp at hlen; omega) (fun hr => hmem (List.mem_cons_of_mem c hr))]

theorem pyReplace_id {x : Char} {pat cs : List Char} (hx : x ∈ pat) (hcs : x ∉ cs) :
    pyReplace pat cs = cs := by
  unfold pyReplace
  cases hp : pat.isEmpty with
  | true => simp
  | false =>
    simp only [Bool.false_eq_true, if_false]
    exact replAux_id pat hx (cs.length + 1) cs (by omega) hcs

theorem c9_preexisting_files_witness :
    resolvePath (projectDirStr taskTrackerSpec) ∈ preFS.dirs ∧
    strayPath ∉ writtenFilePaths taskTrackerSpec ∧
    lookupFile (createProject taskTrackerSpec preFS).1 strayPath = lookupFile preFS strayPath :=
  ⟨by decide, by decide,
   c9_preexisting_files_untouched taskTrackerSpec preFS strayPath (by decide) (by decide)⟩

/-! ### Round-trip of the serializer through the parser -/

theorem asString_toList (s : String) : s.toList.asString = s := rfl

theorem asString_data (s : String) : s.data.asString = s := rfl

theorem char_toNat_ofNat (n : Nat) (h : n < 55296) : (Char.ofNat n).toNat = n := by
  unfold Char.ofNat
  split
  · rfl
  · next hv =>
    simp only [Nat.isValidChar] at hv
    omega

theorem char_ofNat_toNat (c : Char) : Char.ofNat c.toNat = c := by
  unfold Char.ofNat
  split
  · rfl
  · next hv => exact absurd c.valid (by simpa [Char.toNat] using hv)

theorem hexDigitVal_hexChar (n : Nat) (h : n < 16) :
    hexDigitVal (hexChar n) = some n := by
  interval_cases n <;> decide

theorem escChar_length_pos (c : Char) : 1 ≤ (escChar c).length := by
  unfold escChar
  repeat' split
  all_goals simp

theorem escStr_length_ge (s : List Char) : s.length ≤ (escStr s).length := by
  induction s with
  | nil => simp [escStr]
  | cons c s ih =>
    simp only [escStr, List.flatMap_cons, List.length_append, List.length_cons]
    have := escChar_length_pos c
    simp only [escStr] at ih
    omega

theorem pStrBody_rt (s : List Char) :
    ∀ (fuel : Nat) (rest : List Char), s.length < fuel →
      pStrBody fuel (escStr s ++ '"' :: rest) = some (s, rest) := by
  induction s with
  | nil =>
    intro fuel rest hlen
    obtain ⟨f, rfl⟩ : ∃ f, fuel = f + 1 := ⟨fuel - 1, by omega⟩
    rfl
  | cons c s ih =>
    intro fuel rest hlen
    obtain ⟨f, rfl⟩ : ∃ f, fuel = f + 1 := ⟨fuel - 1, by omega⟩
    have hs : s.length < f := by simp at hlen; omega
    have hshape : escStr (c :: s) ++ '"' :: rest = escChar c ++ (escStr s ++ '"' :: rest) := by
      simp [escStr]
    rw [hshape]
    by_cases h1 : c = '"'
    · subst h1
      rw [show escChar '"' = ['\\', '"'] from rfl]
      simp [pStrBody, escCode, ih f rest hs]
    · by_cases h2 : c = '\\'
      · subst h2
        rw [show escChar '\\' = ['\\', '\\'] from rfl]
        simp [pStrBody, escCode, ih f rest hs]
      · by_cases h3 : c = '\n'
        · subst h3
          rw [show escChar '\n' = ['\\', 'n'] from rfl]
          simp [pStrBody, escCode, ih f rest hs]
        · by_cases h4 : c = '\t'
          · subst h4
            rw [show escChar '\t' = ['\\', 't'] from rfl]
            simp [pStrBody, escCode, ih f rest hs]
          · by_cases h5 : c = '\r'
            · subst h5
              rw [show escChar '\r' = ['\\', 'r'] from rfl]
              simp [pStrBody, escCode, ih f rest hs]
            · by_cases h6 : c = Char.ofNat 8
              · subst h6
                rw [show escChar (Char.ofNat 8) = ['\\', 'b'] from rfl]
                simp [pStrBody, escCode, ih f rest hs]
              · by_cases h7 : c = Char.ofNat 12
                · subst h7
                  rw [show escChar (Char.ofNat 12) = ['\\', 'f'] from rfl]
                  simp [pStrBody, escCode, ih f rest hs]
                · by_cases h8 : c.toNat < 32
                  · rw [show escChar c =
                        ['\\', 'u', '0', '0', hexChar (c.toNat / 16), hexChar (c.toNat % 16)]
                      from by
                        unfold escChar
                        rw [if_neg h1, if_neg h2, if_neg h3, if_neg h4, if_neg h5, if_neg h6,
                          if_neg h7, if_pos h8]]
                    have hhi : hexDigitVal (hexChar (c.toNat / 16)) = some (c.toNat / 16) :=
                      hexDigitVal_hexChar _ (by omega)
                    have hlo : hexDigitVal (hexChar (c.toNat % 16)) = some (c.toNat % 16) :=
                      hexDigitVal_hexChar _ (by omega)
                    have h0 : hexDigitVal '0' = some 0 := rfl
                    have hval : ((0 * 16 + 0) * 16 + c.toNat / 16) * 16 + c.toNat % 16 =
                        c.toNat := by omega
                    have hsur : ¬(55296 ≤ c.toNat ∧ c.toNat ≤ 57343) := by omega
                    simp [pStrBody, hhi, hlo, h0, hval, hsur, char_ofNat_toNat,
                      ih f rest hs]
                    refine ⟨by omega, ?_⟩
                    rw [show c.toNat / 16 * 16 + c.toNat % 16 = c.toNat from by omega]
                    exact char_ofNat_toNat c
                  · rw [show escChar c = [c] from by
                        unfold escChar
                        rw [if_neg h1, if_neg h2, if_neg h3, if_neg h4, if_neg h5, if_neg h6,
                          if_neg h7, if_neg h8]]
                    simp [pStrBody, h1, h2, h8, ih f rest hs]

theorem pStringBody_rt (s rest : List Char) :
    pStringBody (escStr s ++ '"' :: rest) = some (s, rest) := by
  unfold pStringBody
  apply pStrBody_rt
  have := escStr_length_ge s
  simp only [List.length_append, List.length_cons]
  omega

theorem natDigits_ne_nil (n : Nat) : natDigits n ≠ [] := by
  unfold natDigits natDigitsAux
  split <;> simp

theorem ser_len_pos (v : PyJson) : 1 ≤ (serJson v).length := by
  cases v with
  | num n =>
    simp only [serJson, serInt]
    split
    · simp
    · simpa using List.length_pos.mpr (natDigits_ne_nil _)
  | bool b => cases b <;> simp [serJson]
  | null => simp [serJson]
  | str s => simp [serJson]
  | arr xs => simp [serJson]
  | obj kvs => simp [serJson]

theorem ser_head (v : PyJson) (hn : noNum v = true) :
    ∃ c t, serJson v = c :: t ∧
      jWs c = false ∧ c ≠ ']' ∧ c ≠ '}' ∧ c ≠ ',' := by
  cases v with
  | null => exact ⟨'n', ['u', 'l', 'l'], rfl, by decide, by decide, by decide, by decide⟩
  | bool b =>
    cases b with
    | true => exact ⟨'t', ['r', 'u', 'e'], rfl, by decide, by decide, by decide, by decide⟩
    | false => exact ⟨'f', ['a', 'l', 's', 'e'], rfl, by decide, by decide, by decide, by decide⟩
  | num n => simp [noNum] at hn
  | str s =>
    exact ⟨'"', escStr s.toList ++ ['"'], rfl, by decide, by decide, by decide, by decide⟩
  | arr xs =>
    exact ⟨'[', serElems xs ++ [']'], rfl, by decide, by decide, by decide, by decide⟩
  | obj kvs =>
    exact ⟨'{', serMembers kvs ++ ['}'], rfl, by decide, by decide, by decide, by decide⟩

theorem ser_dropWhile (v : PyJson) (r : List Char) (hn : noNum v = true) :
    (serJson v ++ r).dropWhile jWs = serJson v ++ r := by
  obtain ⟨c, t, hser, hws, _, _, _⟩ := ser_head v hn
  rw [hser, List.cons_append, dropWhile_cons_self _ hws]

theorem pVal_ws_cons (fuel : Nat) (cs : List Char) :
    pVal fuel (' ' :: cs) = pVal fuel cs := by
  cases fuel with
  | zero => rfl
  | succ f =>
    simp only [pVal]
    rw [List.dropWhile_cons, if_pos (by decide)]

theorem rt_all : ∀ fuel : Nat,
    (∀ (v : PyJson) (rest : List Char), noNum v = true → (serJson v).length < fuel →
      pVal fuel (serJson v ++ rest) = some (v, rest)) ∧
    (∀ (xs : List PyJson) (rest : List Char), noNumL xs = true →
      (serElems xs).length + 1 < fuel →
      pArrItems fuel (serElems xs ++ ']' :: rest) = some (xs, rest)) ∧
    (∀ (xs : List PyJson) (rest : List Char), noNumL xs = true →
      (serElemsTail xs).length + 1 < fuel →
      pArrSep fuel (serElemsTail xs ++ ']' :: rest) = some (xs, rest)) ∧
    (∀ (kvs : List (String × PyJson)) (rest : List Char), noNumM kvs = true →
      (serMembers kvs).length + 1 < fuel →
      pObjItems fuel (serMembers kvs ++ '}' :: rest) = some (kvs, rest)) ∧
    (∀ (kvs : List (String × PyJson)) (rest : List Char), noNumM kvs = true →
      (serMembersTail kvs).length + 1 < fuel →
      pObjSep fuel (serMembersTail kvs ++ '}' :: rest) = some (kvs, rest)) ∧
    (∀ (v : PyJson) (rest : List Char), noNum v = true → (serJson v).length + 1 < fuel →
      pColonVal fuel (':' :: ' ' :: (serJson v ++ rest)) = some (v, rest)) := by
  intro fuel
  induction fuel with
  | zero =>
    refine ⟨?_, ?_, ?_, ?_, ?_, ?_⟩ <;> (intro x rest hn hlen; omega)
  | succ f ih =>
    obtain ⟨ih1, ih2, ih3, ih4, ih5, ih6⟩ := ih
    refine ⟨?_, ?_, ?_, ?_, ?_, ?_⟩
    · intro v rest hn hlen
      cases v with
      | null => rfl
      | bool b => cases b <;> rfl
      | num n => simp [noNum] at hn
      | str s =>
        rw [show serJson (.str s) ++ rest = '"' :: (escStr s.toList ++ '"' :: rest) from by
          simp [serJson]]
        simp only [pVal]
        rw [dropWhile_cons_self _ (by decide)]
        simp [pStringBody_rt]
        rfl
      | arr xs =>
        rw [show serJson (.arr xs) ++ rest = '[' :: (serElems xs ++ ']' :: rest) from by
          simp [serJson]]
        simp only [pVal]
        rw [dropWhile_cons_self _ (by decide)]
        have harr := ih2 xs rest (by simpa [noNum] using hn)
          (by simp [serJson] at hlen; omega)
        simp [harr]
      | obj kvs =>
        rw [show serJson (.obj kvs) ++ rest = '{' :: (serMembers kvs ++ '}' :: rest) from by
          simp [serJson]]
        simp only [pVal]
        rw [dropWhile_cons_self _ (by decide)]
        have hobj := ih4 kvs rest (by simpa [noNum] using hn)
          (by simp [serJson] at hlen; omega)
        simp [hobj]
    · intro xs rest hn hlen
      cases xs with
      | nil => rfl
      | cons x xs' =>
        have hnx : noNum x = true ∧ noNumL xs' = true := by
          simpa [noNumL, Bool.and_eq_true] using hn
        rw [show serElems (x :: xs') ++ ']' :: rest =
            serJson x ++ (serElemsTail xs' ++ ']' :: rest) from by simp [serElems]]
        simp only [pArrItems]
        rw [ser_dropWhile x _ hnx.1]
        obtain ⟨c, t, hser, _, hne1, _, _⟩ := ser_head x hnx.1
        have hhne : (serJson x ++ (serElemsTail xs' ++ ']' :: rest)).head? ≠ some ']' := by
          rw [hser, List.cons_append, List.head?_cons]
          intro hcc
          exact hne1 (Option.some.inj hcc)
        rw [if_neg hhne]
        have hlen' : (serJson x).length + (serElemsTail xs').length + 1 < f + 1 := by
          simpa [serElems] using hlen
        have h1 := ih1 x (serElemsTail xs' ++ ']' :: rest) hnx.1 (by omega)
        have h3 := ih3 xs' rest hnx.2 (by have := ser_len_pos x; omega)
        simp [h1, h3]
    · intro xs rest hn hlen
      cases xs with
      | nil => rfl
      | cons y ys =>
        have hny : noNum y = true ∧ noNumL ys = true := by
          simpa [noNumL, Bool.and_eq_true] using hn
        rw [show serElemsTail (y :: ys) ++ ']' :: rest =
            ',' :: ' ' :: (serJson y ++ (serElemsTail ys ++ ']' :: rest)) from by
          simp [serElemsTail]]
        simp only [pArrSep]
        rw [dropWhile_cons_self _ (by decide)]
        simp only [List.head?_cons]
        rw [if_neg (by simp)]
        rw [if_pos trivial]
        have hlen' := hlen
        simp only [serElemsTail, List.length_append, List.length_cons] at hlen'
        have h1 := ih1 y (serElemsTail ys ++ ']' :: rest) hny.1 (by omega)
        have h3 := ih3 ys rest hny.2 (by omega)
        simp [pVal_ws_cons, h1, h3]
    · intro kvs rest hn hlen
      cases kvs with
      | nil => rfl
      | cons kv kvs' =>
        obtain ⟨k, v⟩ := kv
        have hnv : noNum v = true ∧ noNumM kvs' = true := by
          simpa [noNumM, Bool.and_eq_true] using hn
        rw [show serMembers ((k, v) :: kvs') ++ '}' :: rest =
            '"' :: (escStr k.toList ++ '"' ::
              (':' :: ' ' :: (serJson v ++ (serMembersTail kvs' ++ '}' :: rest)))) from by
          simp [serMembers, serMember]]
        simp only [pObjItems]
        rw [dropWhile_cons_self _ (by decide)]
        rw [if_neg (by simp)]
        have hstr := pStringBody_rt k.data
          (':' :: ' ' :: (serJson v ++ (serMembersTail kvs' ++ '}' :: rest)))
        have hlen' := hlen
        simp only [serMembers, serMember, serMembersTail, List.length_append,
          List.length_cons] at hlen'
        have h6 := ih6 v (serMembersTail kvs' ++ '}' :: rest) hnv.1 (by omega)
        have h5 := ih5 kvs' rest hnv.2 (by omega)
        simp [hstr, h6, h5, asString_data]
    · intro kvs rest hn hlen
      cases kvs with
      | nil => rfl
      | cons kv kvs' =>
        obtain ⟨k, v⟩ := kv
        have hnv : noNum v = true ∧ noNumM kvs' = true := by
          simpa [noNumM, Bool.and_eq_true] using hn
        rw [show serMembersTail ((k, v) :: kvs') ++ '}' :: rest =
            ',' :: ' ' :: '"' :: (escStr k.toList ++ '"' ::
              (':' :: ' ' :: (serJson v ++ (serMembersTail kvs' ++ '}' :: rest)))) from by
          simp [serMembersTail, serMember]]
        simp only [pObjSep]
        rw [dropWhile_cons_self _ (by decide)]
        simp only [List.head?_cons]
        rw [if_neg (by simp)]
        rw [if_pos trivial]
        rw [List.tail_cons]
        rw [show (' ' :: '"' :: (escStr k.toList ++ '"' ::
            (':' :: ' ' :: (serJson v ++ (serMembersTail kvs' ++ '}' :: rest))))).dropWhile jWs
            = '"' :: (escStr k.toList ++ '"' ::
              (':' :: ' ' :: (serJson v ++ (serMembersTail kvs' ++ '}' :: rest)))) from by
          rw [List.dropWhile_cons, if_pos (by decide), dropWhile_cons_self _ (by decide)]]
        have hstr := pStringBody_rt k.data
          (':' :: ' ' :: (serJson v ++ (serMembersTail kvs' ++ '}' :: rest)))
        have hlen' := hlen
        simp only [serMembersTail, serMember, serMembers, List.length_append,
          List.length_cons] at hlen'
        have h6 := ih6 v (serMembersTail kvs' ++ '}' :: rest) hnv.1 (by omega)
        have h5 := ih5 kvs' rest hnv.2 (by omega)
        simp [hstr, h6, h5, asString_data]
    · intro v rest hn hlen
      simp only [pColonVal]
      rw [dropWhile_cons_self _ (by decide)]
      simp only [List.head?_cons]
      rw [if_pos trivial, List.tail_cons, pVal_ws_cons]
      exact ih1 v rest hn (by omega)

theorem parseChars_serJson (v : PyJson) (hn : noNum v = true) :
    parseChars (serJson v) = some v := by
  unfold parseChars
  have h := (rt_all (3 * (serJson v).length + 3)).1 v [] hn (by omega)
  rw [List.append_nil] at h
  rw [h]
  rfl

/-! ### Fenced-block extraction of a serialized specification -/

theorem dropWhile_append_eq {p : Char → Bool} (l1 : List Char) {l2 : List Char}
    (h : l2.dropWhile p = l2) : (l1 ++ l2).dropWhile p = l1.dropWhile p ++ l2 := by
  cases hd : l1.dropWhile p with
  | nil => rw [dropWhile_append_of_eq_nil _ hd, h, List.nil_append]
  | cons d r => rw [dropWhile_append_of_eq_cons _ hd]; rfl

theorem dropWhile_nil_of_all {p : Char → Bool} {l : List Char}
    (h : ∀ x ∈ l, p x = true) : l.dropWhile p = [] := by
  induction l with
  | nil => rfl
  | cons c r ih =>
    have hpc : p c = true := h c (List.mem_cons_self c r)
    rw [List.dropWhile_cons, if_pos hpc]
    exact ih fun x hx => h x (List.mem_cons_of_mem c hx)

theorem truncAtLastClose_wrap (m w : List Char) (hw : '}' ∉ w) :
    truncAtLastClose (('{' :: m ++ ['}']) ++ w) = '{' :: m ++ ['}'] := by
  unfold truncAtLastClose
  rw [List.reverse_append]
  rw [show ('{' :: m ++ ['}']).reverse = '}' :: ('{' :: m).reverse from by
    rw [List.reverse_append]; rfl]
  rw [dropWhile_append_of_eq_nil _ (dropWhile_nil_of_all fun x hx => by
    have hxw : x ∈ w := List.mem_reverse.mp hx
    have : x ≠ '}' := fun hxx => hw (hxx ▸ hxw)
    simp [this])]
  rw [dropWhile_cons_self _ (by simp)]
  rw [List.reverse_cons, List.reverse_reverse]

theorem braceSpan_wrap (u m w : List Char) (hu : '{' ∉ u) (hw : '}' ∉ w) :
    braceSpan (u ++ (('{' :: m ++ ['}']) ++ w)) = some ('{' :: m ++ ['}']) := by
  induction u with
  | nil =>
    rw [List.nil_append]
    rw [show ('{' :: m ++ ['}']) ++ w = '{' :: (m ++ ['}'] ++ w) from by simp]
    simp only [braceSpan]
    rw [if_pos (by simp)]
    rw [show '{' :: (m ++ ['}'] ++ w) = ('{' :: m ++ ['}']) ++ w from by simp]
    rw [truncAtLastClose_wrap m w hw]
  | cons c u' ih =>
    have hc : c ≠ '{' := fun h => hu (h ▸ List.mem_cons_self c u')
    rw [List.cons_append]
    simp only [braceSpan]
    rw [if_neg (by simp [hc])]
    exact ih fun h => hu (List.mem_cons_of_mem c h)

theorem pyStrip_wrap {m : List Char} (a b : List Char) {c d : Char} {t l : List Char}
    (hm : m = c :: t) (hc : pyWs c = false)
    (hml : m = l ++ [d]) (hd : pyWs d = false) :
    pyStrip (a ++ m ++ b) =
      a.dropWhile pyWs ++ m ++ (b.reverse.dropWhile pyWs).reverse := by
  have hmr : m.reverse = d :: l.reverse := by rw [hml]; simp
  unfold pyStrip
  have h1 : (m ++ b).dropWhile pyWs = m ++ b := by
    rw [hm, List.cons_append, dropWhile_cons_self _ hc]
  have hfront : (a ++ m ++ b).dropWhile pyWs = a.dropWhile pyWs ++ (m ++ b) := by
    rw [List.append_assoc]; exact dropWhile_append_eq a h1
  rw [hfront]
  have h2 : (m.reverse ++ (a.dropWhile pyWs).reverse).dropWhile pyWs
      = m.reverse ++ (a.dropWhile pyWs).reverse := by
    rw [hmr, List.cons_append, dropWhile_cons_self _ hd]
  have hrev : (a.dropWhile pyWs ++ (m ++ b)).reverse
      = b.reverse ++ (m.reverse ++ (a.dropWhile pyWs).reverse) := by
    simp [List.reverse_append]
  rw [hrev, dropWhile_append_eq b.reverse h2]
  simp [List.reverse_append, List.append_assoc]

set_option maxRecDepth 10000 in
/-- C8 counterexample: a serialized valid ProjectSpecification wrapped in
a fenced block, but with trailing prose containing a `}`: the greedy
brace-span regex captures through the prose, no parse attempt succeeds,
and extraction fails instead of recovering the original object. -/
theorem c8_prose_brace_counterexample :
    noNum prdObjC8 = true ∧
    parseChars (serJson prdObjC8) = some prdObjC8 ∧
    isOkE (extractCore textC8) = false := by
  refine ⟨rfl, ?_, ?_⟩
  · exact parseChars_serJson prdObjC8 rfl
  · rfl

/-- C8 amended: for every ProjectSpecification object (text leaves, no
backtick in its serialization), serializing it, wrapping the
serialization in a markdown fence surrounded by prose whose leading part
contains no `{` and whose trailing part contains no `}`, and passing the
result through the extraction step yields the original object. -/
theorem c8_amended_roundtrip :
    ∀ (kvs : List (String × PyJson)) (pre post : List Char),
      noNum (PyJson.obj kvs) = true →
      btick ∉ serJson (PyJson.obj kvs) →
      '{' ∉ pre →
      '}' ∉ post →
      extractCore (pre ++ (fenceJson ++ ['\n']) ++ serJson (PyJson.obj kvs) ++
        ('\n' :: fencePlain) ++ post) = .ok (PyJson.obj kvs) := by
  intro kvs pre post hn hbt hpre hpost
  have htext : pre ++ (fenceJson ++ ['\n']) ++ serJson (PyJson.obj kvs) ++
      ('\n' :: fencePlain) ++ post =
      pre ++ ((fenceJson ++ ['\n']) ++ serJson (PyJson.obj kvs) ++ ('\n' :: fencePlain))
        ++ post := by
    simp [List.append_assoc]
  rw [htext]
  have hstrip := pyStrip_wrap (m := (fenceJson ++ ['\n']) ++ serJson (PyJson.obj kvs) ++
      ('\n' :: fencePlain)) pre post
    (c := btick) (t := [btick, btick, 'j', 's', 'o', 'n'] ++ ['\n'] ++
      serJson (PyJson.obj kvs) ++ ('\n' :: fencePlain)) rfl
    (by decide)
    (d := btick) (l := (fenceJson ++ ['\n']) ++ serJson (PyJson.obj kvs) ++
      ['\n', btick, btick])
    (by simp [fencePlain, List.append_assoc]) (by decide)
  have hpostTmem : '}' ∉ (post.reverse.dropWhile pyWs).reverse := by
    intro hmem
    have h1 : '}' ∈ post.reverse.dropWhile pyWs := List.mem_reverse.mp hmem
    have h2 : '}' ∈ post.reverse := (List.dropWhile_suffix pyWs).subset h1
    exact hpost (List.mem_reverse.mp h2)
  have hser : serJson (PyJson.obj kvs) = '{' :: serMembers kvs ++ ['}'] := rfl
  have hshape : pre.dropWhile pyWs ++ ((fenceJson ++ ['\n']) ++ serJson (PyJson.obj kvs) ++
      ('\n' :: fencePlain)) ++ (post.reverse.dropWhile pyWs).reverse =
      (pre.dropWhile pyWs ++ (fenceJson ++ ['\n'])) ++
        (('{' :: serMembers kvs ++ ['}']) ++
          (('\n' :: fencePlain) ++ (post.reverse.dropWhile pyWs).reverse)) := by
    rw [hser]; simp [List.append_assoc]
  have hhead : (pre.dropWhile pyWs ++ ((fenceJson ++ ['\n']) ++ serJson (PyJson.obj kvs) ++
      ('\n' :: fencePlain)) ++ (post.reverse.dropWhile pyWs).reverse).head? ≠ some '{' := by
    cases hpd : pre.dropWhile pyWs with
    | nil =>
      intro hcc
      rw [List.nil_append] at hcc
      rw [show (((fenceJson ++ ['\n']) ++ serJson (PyJson.obj kvs) ++
        ('\n' :: fencePlain)) ++ (post.reverse.dropWhile pyWs).reverse).head? = some btick
        from rfl] at hcc
      exact absurd (Option.some.inj hcc) (by decide)
    | cons d r =>
      rw [List.cons_append, List.cons_append, List.head?_cons]
      intro hcc
      have hd : d = '{' := Option.some.inj hcc
      have hdin : d ∈ pre := (List.dropWhile_suffix pyWs).subset
        (by rw [hpd]; exact List.mem_cons_self d r)
      exact hpre (hd ▸ hdin)
  have hheadF : ((pre.dropWhile pyWs ++ ((fenceJson ++ ['\n']) ++ serJson (PyJson.obj kvs) ++
      ('\n' :: fencePlain)) ++ (post.reverse.dropWhile pyWs).reverse).head? = some '{')
      = False := eq_false hhead
  have hbs : braceSpan (pre.dropWhile pyWs ++ ((fenceJson ++ ['\n']) ++
      serJson (PyJson.obj kvs) ++ ('\n' :: fencePlain)) ++
      (post.reverse.dropWhile pyWs).reverse) = some (serJson (PyJson.obj kvs)) := by
    rw [hshape, hser]
    exact braceSpan_wrap _ _ _
      (by
        intro hmem
        rcases List.mem_append.mp hmem with h | h
        · exact hpre ((List.dropWhile_suffix pyWs).subset h)
        · revert h; decide)
      (by
        intro hmem
        rcases List.mem_append.mp hmem with h | h
        · revert h; decide
        · exact hpostTmem h)
  have hrepl : pyReplace fencePlain (pyReplace fenceJson (serJson (PyJson.obj kvs))) =
      serJson (PyJson.obj kvs) := by
    rw [pyReplace_id (by decide : btick ∈ fenceJson) hbt,
      pyReplace_id (by decide : btick ∈ fencePlain) hbt]
  have hpc := parseChars_serJson (PyJson.obj kvs) hn
  unfold extractCore
  rw [hstrip]
  simp only [hheadF, if_false, hbs, hrepl, hpc]

theorem c8_amended_witness :
    noNum (PyJson.obj prdKvsC8) = true ∧
    btick ∉ serJson (PyJson.obj prdKvsC8) ∧
    '{' ∉ preW ∧
    '}' ∉ postW ∧
    extractCore (preW ++ (fenceJson ++ ['\n']) ++ serJson (PyJson.obj prdKvsC8) ++
      ('\n' :: fencePlain) ++ postW) = .ok (PyJson.obj prdKvsC8) :=
  ⟨rfl, by decide, by decide, by decide,
   c8_amended_roundtrip prdKvsC8 preW postW rfl (by decide) (by decide) (by decide)⟩

end PipeSpec
